import Mathlib

/-!
Shallow embedding of the hacktivator PIM core (package `azure` and the role
selector of package `ui`).  External process invocations (the `az` CLI) are
modelled as environment records of pure functions: a network/CLI call that can
fail becomes `Except String α` where the payload is already JSON-decoded (a
CLI failure and an unmarshal failure both surface as `.error`, exactly as both
produce an error return in the Go caller).  Wall-clock time and UUID
generation are environment inputs.  Timestamp parsing (Go `time.Parse` with
RFC 3339) is an environment parameter `parseTime : String → Option Nat`:
`none` models a malformed timestamp, and `0` models Go's zero `time.Time`.
-/

namespace Hacktivator

/-- Embeds `RoleDefinitionInfo` (azure/pim.go). -/
structure RoleDefinitionInfo where
  id : String
  displayName : String
  type' : String
deriving Repr, DecidableEq

/-- Embeds `ScopeInfo`. -/
structure ScopeInfo where
  id : String
  displayName : String
  type' : String
deriving Repr, DecidableEq

/-- Embeds `PrincipalInfo`. -/
structure PrincipalInfo where
  id : String
  displayName : String
  email : String
  type' : String
deriving Repr, DecidableEq

/-- Embeds `ExpandedProperties`. -/
structure ExpandedProperties where
  roleDefinition : RoleDefinitionInfo
  scope : ScopeInfo
  principal : PrincipalInfo
deriving Repr, DecidableEq

/-- Embeds `EligibleRole`.  `StartDateTime : Nat` models a `time.Time`
instant (zero value `0`); `EndDateTime : Option Nat` models `*time.Time`
(`none` is the nil pointer). -/
structure EligibleRole where
  ID : String
  RoleDefinitionID : String
  RoleName : String
  Scope : String
  ScopeName : String
  ScopeType : String
  PrincipalID : String
  Status : String
  MemberType : String
  StartDateTime : Nat
  EndDateTime : Option Nat
  MaxDuration : Int
  EligibilityID : String
  ExpandedProperties : Option ExpandedProperties
deriving Repr, DecidableEq

/-- Embeds `ActivationRequest`.  `Duration : Int` models the Go `int`. -/
structure ActivationRequest where
  Role : EligibleRole
  Duration : Int
  Justification : String
  TicketNumber : String
  TicketSystem : String
deriving Repr, DecidableEq

/-- Embeds the `properties` sub-struct of one element of
`roleEligibilityScheduleInstancesResponse.Value`. -/
structure PageItemProperties where
  roleDefinitionId : String
  scope : String
  principalId : String
  status : String
  memberType : String
  startDateTime : String
  endDateTime : Option String
  expandedProperties : Option ExpandedProperties
deriving Repr, DecidableEq

/-- Embeds one element of `roleEligibilityScheduleInstancesResponse.Value`. -/
structure PageItem where
  id : String
  name : String
  type' : String
  properties : PageItemProperties
deriving Repr, DecidableEq

/-- Embeds `roleEligibilityScheduleInstancesResponse` (one decoded page).
An absent `nextLink` decodes to the empty string, as in Go. -/
structure PageResponse where
  value : List PageItem
  nextLink : String
deriving Repr, DecidableEq

/-- Embeds the private `subscription` struct of azure/pim.go. -/
structure Subscription where
  ID : String
  Name : String
deriving Repr, DecidableEq

/-- Go `strings.Split` on a single-character separator, over the character
list: `splitOnChar c s` never returns the empty list, and splitting the empty
string yields `[[]]`, as in Go. -/
def splitOnChar (c : Char) : List Char → List (List Char)
  | [] => [[]]
  | x :: xs =>
    let rest := splitOnChar c xs
    if x = c then [] :: rest
    else
      match rest with
      | r :: rs => (x :: r) :: rs
      | [] => [[x]]

/-- Splits a string on `/`, Go `strings.Split(path, "/")`. -/
def splitSlash (path : String) : List String :=
  (splitOnChar (Char.ofNat 47) path.data).map String.mk

/-- Whether `pre` is a prefix of `s`, over character lists. -/
def startsWithList : List Char → List Char → Bool
  | [], _ => true
  | _ :: _, [] => false
  | a :: as, b :: bs => a == b && startsWithList as bs

/-- Go `strings.Contains s sub`: some suffix of `s` starts with `sub`. -/
def charsContains (sub : List Char) : List Char → Bool
  | [] => startsWithList sub []
  | x :: xs => startsWithList sub (x :: xs) || charsContains sub xs

/-- Go `strings.Contains` lifted to strings. -/
def containsSubstring (s sub : String) : Bool :=
  charsContains sub.data s.data

/-- Embeds `extractLastSegment`: `strings.Split(path, "/")`, then the last
element when the list is non-empty, else the path itself. -/
def extractLastSegment (path : String) : String :=
  match (splitSlash path).getLast? with
  | some s => s
  | none => path

/-- Loop body of `extractScopeName`: walk the segments in order; at the first
segment equal to one of the three keywords that also has a following segment,
return that following segment; otherwise fall through to the whole scope. -/
def scopeNameLoop (scope : String) : List String → String
  | p :: next :: rest =>
    if p = "subscriptions" ∨ p = "resourceGroups" ∨ p = "managementGroups" then
      next
    else
      scopeNameLoop scope (next :: rest)
  | _ => scope

/-- Embeds `extractScopeName`. -/
def extractScopeName (scope : String) : String :=
  scopeNameLoop scope (splitSlash scope)

/-- Embeds `detectScopeType`: substring checks in source order
(`resourceGroups` before `managementGroups` before `subscriptions`). -/
def detectScopeType (scope : String) : String :=
  if containsSubstring scope "/resourceGroups/" then "resourceGroup"
  else if containsSubstring scope "/managementGroups/" then "managementGroup"
  else if containsSubstring scope "/subscriptions/" then "subscription"
  else "unknown"

/-- Environment for the eligibility aggregator: `getSubscriptions` models
`az account list` plus JSON decoding, `fetchPage` models `az rest GET` on one
URL plus JSON decoding of one page, `parseTime` models `time.Parse` with
RFC 3339 (`none` on a malformed timestamp). -/
structure AggEnv where
  getSubscriptions : Except String (List Subscription)
  fetchPage : String → Except String PageResponse
  parseTime : String → Option Nat

/-- Per-row mapping of one API item to an `EligibleRole`, the loop body at
pim.go lines 185–224: identifiers and raw fields copied, `EligibilityID` set
to the item id, `MaxDuration` set to 480, timestamps parsed when present and
well-formed (a parse failure leaves the zero value), names resolved from
expanded properties when present, else derived heuristically. -/
def mapItem (parseTime : String → Option Nat) (item : PageItem) : EligibleRole :=
  let base : EligibleRole :=
    { ID := item.id
      EligibilityID := item.id
      RoleDefinitionID := item.properties.roleDefinitionId
      RoleName := ""
      Scope := item.properties.scope
      ScopeName := ""
      ScopeType := ""
      PrincipalID := item.properties.principalId
      Status := item.properties.status
      MemberType := item.properties.memberType
      StartDateTime := 0
      EndDateTime := none
      MaxDuration := 480
      ExpandedProperties := item.properties.expandedProperties }
  let base :=
    if item.properties.startDateTime ≠ "" then
      match parseTime item.properties.startDateTime with
      | some t => { base with StartDateTime := t }
      | none => base
    else base
  let base :=
    match item.properties.endDateTime with
    | some s =>
      if s ≠ "" then
        match parseTime s with
        | some t => { base with EndDateTime := some t }
        | none => base
      else base
    | none => base
  match item.properties.expandedProperties with
  | some ep =>
    { base with
      RoleName := ep.roleDefinition.displayName
      ScopeName := ep.scope.displayName
      ScopeType := ep.scope.type' }
  | none =>
    { base with
      RoleName := extractLastSegment base.RoleDefinitionID
      ScopeName := extractScopeName base.Scope
      ScopeType := detectScopeType base.Scope }

/-- Embeds `fetchEligibleRoles`: follow `nextLink` until it is empty, mapping
every row of every page.  The second component records the URLs requested, in
order (one per loop iteration).  `fuel` bounds the number of page requests, a
termination artifact absent from the Go loop `for url != ""`; running out of
fuel surfaces as an error, which every theorem below avoids by providing
enough fuel. -/
def fetchEligibleRoles (env : AggEnv) (fuel : Nat) (url : String) :
    Except String (List EligibleRole) × List String :=
  if url = "" then (.ok [], [])
  else
    match fuel with
    | 0 => (.error "out of fuel", [])
    | f + 1 =>
      match env.fetchPage url with
      | .error e => (.error e, [url])
      | .ok resp =>
        let pr := fetchEligibleRoles env f resp.nextLink
        (pr.1.map (fun more => resp.value.map (mapItem env.parseTime) ++ more),
         url :: pr.2)

/-- URL built by `getEligibleRolesAtScope`: unscoped for the empty scope,
else scope-qualified. -/
def eligibleRolesURL (scope : String) : String :=
  if scope = "" then
    "https://management.azure.com/providers/Microsoft.Authorization/roleEligibilityScheduleInstances?api-version=2020-10-01&$filter=asTarget()&$expand=roleDefinition,principal"
  else
    "https://management.azure.com" ++ scope ++ "/providers/Microsoft.Authorization/roleEligibilityScheduleInstances?api-version=2020-10-01&$filter=asTarget()&$expand=roleDefinition,principal"

/-- Embeds `getEligibleRolesAtScope` (URL trace kept). -/
def getEligibleRolesAtScope (env : AggEnv) (fuel : Nat) (scope : String) :
    Except String (List EligibleRole) × List String :=
  fetchEligibleRoles env fuel (eligibleRolesURL scope)

/-- Dedup loop of `GetEligibleRoleAssignments` (pim.go lines 126–134), with
the `seen` map as a list of already-kept IDs. -/
def dedupGo (seen : List String) : List EligibleRole → List EligibleRole
  | [] => []
  | r :: rest =>
    if seen.contains r.ID then dedupGo seen rest
    else r :: dedupGo (r.ID :: seen) rest

/-- Deduplicate by `ID`, keeping the first occurrence. -/
def dedupByID (roles : List EligibleRole) : List EligibleRole :=
  dedupGo [] roles

/-- Rows contributed by one scope inside `GetEligibleRoleAssignments`: the
fetched rows on success, nothing when the scope's query failed. -/
def scopeRows (env : AggEnv) (fuel : Nat) (scope : String) : List EligibleRole :=
  match (getEligibleRolesAtScope env fuel scope).1 with
  | .ok rs => rs
  | .error _ => []

/-- Embeds `GetEligibleRoleAssignments`: subscription enumeration (fatal on
failure), tenant-root query (failure ignored), one scoped query per
subscription (failures skipped), then dedup by ID. -/
def GetEligibleRoleAssignments (env : AggEnv) (fuel : Nat) :
    Except String (List EligibleRole) :=
  match env.getSubscriptions with
  | .error e => .error ("failed to get subscriptions: " ++ e)
  | .ok subs =>
    let tenantRoles :=
      match (getEligibleRolesAtScope env fuel "").1 with
      | .ok rs => rs
      | .error _ => []
    let allRoles := subs.foldl
      (fun acc sub =>
        match (getEligibleRolesAtScope env fuel ("/subscriptions/" ++ sub.ID)).1 with
        | .ok rs => acc ++ rs
        | .error _ => acc)
      tenantRoles
    .ok (dedupByID allRoles)

/-- URL of `GetActiveRoleAssignments`. -/
def activeAssignmentsURL : String :=
  "https://management.azure.com/providers/Microsoft.Authorization/roleAssignmentScheduleInstances?api-version=2020-10-01&$filter=asTarget()&$expand=roleDefinition,principal"

/-- Per-row mapping of `GetActiveRoleAssignments` (pim.go lines 370–387): no
`EligibilityID`, no `MaxDuration`, no timestamp parsing, and names only from
expanded properties (all else stays at the zero value). -/
def mapActiveItem (item : PageItem) : EligibleRole :=
  let base : EligibleRole :=
    { ID := item.id
      EligibilityID := ""
      RoleDefinitionID := item.properties.roleDefinitionId
      RoleName := ""
      Scope := item.properties.scope
      ScopeName := ""
      ScopeType := ""
      PrincipalID := item.properties.principalId
      Status := item.properties.status
      MemberType := item.properties.memberType
      StartDateTime := 0
      EndDateTime := none
      MaxDuration := 0
      ExpandedProperties := item.properties.expandedProperties }
  match item.properties.expandedProperties with
  | some ep =>
    { base with
      RoleName := ep.roleDefinition.displayName
      ScopeName := ep.scope.displayName
      ScopeType := ep.scope.type' }
  | none => base

/-- Embeds `GetActiveRoleAssignments`: a single page, no pagination. -/
def GetActiveRoleAssignments (env : AggEnv) : Except String (List EligibleRole) :=
  match env.fetchPage activeAssignmentsURL with
  | .error e => .error e
  | .ok resp => .ok (resp.value.map mapActiveItem)

/-- Embeds one element of the decoded `roleEligibilitySchedules` response
(`value[]` with `id` and `name`). -/
structure NamedResource where
  id : String
  name : String
deriving Repr, DecidableEq

/-- The expiration block of the activation body's `scheduleInfo`. -/
structure ScheduleExpiration where
  type' : String
  duration : String
deriving Repr, DecidableEq

/-- The `scheduleInfo` block of the activation body. -/
structure ScheduleInfo where
  startDateTime : String
  expiration : ScheduleExpiration
deriving Repr, DecidableEq

/-- The `ticketInfo` block: the Go code builds a `map[string]string` adding
each key only when non-empty, so each field is an `Option`. -/
structure TicketInfo where
  ticketNumber : Option String
  ticketSystem : Option String
deriving Repr, DecidableEq

/-- The `properties` object of the activation request body built at pim.go
lines 267–294; `ticketInfo` is `none` when the key is absent. -/
structure ActivationBodyProperties where
  principalId : String
  roleDefinitionId : String
  requestType : String
  linkedRoleEligibilityScheduleId : String
  justification : String
  scheduleInfo : ScheduleInfo
  ticketInfo : Option TicketInfo
deriving Repr, DecidableEq

/-- The activation request body. -/
structure ActivationBody where
  properties : ActivationBodyProperties
deriving Repr, DecidableEq

/-- The filter parameters of one `roleEligibilitySchedules` lookup. -/
structure ScheduleQuery where
  scope : String
  roleDefinitionId : String
  principalId : String
deriving Repr, DecidableEq

/-- Environment for `ActivateRole`: the current-user lookup, the schedule
query (URL to decoded `value[]`), the formatted current UTC time
(`time.Now().UTC().Format(time.RFC3339)`), the generated request UUID, and
the PUT submission. -/
structure ActivateEnv where
  getCurrentUserPrincipalID : Except String String
  queryEligibilitySchedules : String → Except String (List NamedResource)
  nowRFC3339 : String
  requestID : String
  put : String → ActivationBody → Except String String

/-- URL built by `getEligibilityScheduleID` (pim.go lines 322–325); `\x27`
is the single-quote character of the `$filter` expression. -/
def eligibilitySchedulesURL (scope roleDefinitionID principalID : String) : String :=
  "https://management.azure.com" ++ scope ++
    "/providers/Microsoft.Authorization/roleEligibilitySchedules?api-version=2020-10-01&$filter=principalId eq \x27" ++
    principalID ++ "\x27 and roleDefinitionId eq \x27" ++ roleDefinitionID ++ "\x27"

/-- Embeds `getEligibilityScheduleID`: query the schedules at the scope
filtered by principal and role definition; error when the call fails or the
result set is empty, else the `name` of the first match. -/
def getEligibilityScheduleID (env : ActivateEnv)
    (scope roleDefinitionID principalID : String) : Except String String :=
  match env.queryEligibilitySchedules
      (eligibilitySchedulesURL scope roleDefinitionID principalID) with
  | .error e => .error ("failed to query eligibility schedules: " ++ e)
  | .ok [] => .error "no eligibility schedule found"
  | .ok (v :: _) => .ok v.name

/-- The schedule-id resolution of `ActivateRole` (pim.go lines 256–261): the
lookup keyed by the eligibility record's scope, role definition and
principal, with the last path segment of the instance's own id as fallback.
Total: it always produces a string. -/
def linkedScheduleID (env : ActivateEnv) (req : ActivationRequest) : String :=
  match getEligibilityScheduleID env req.Role.Scope req.Role.RoleDefinitionID
      req.Role.PrincipalID with
  | .ok s => s
  | .error _ => extractLastSegment req.Role.ID

/-- The activation request body built at pim.go lines 267–294, as a function
of the activating principal, the resolved schedule id, the formatted current
time and the request. -/
def activationRequestBody (currentUserPrincipalID eligibilityScheduleID now : String)
    (req : ActivationRequest) : ActivationBody :=
  { properties :=
    { principalId := currentUserPrincipalID
      roleDefinitionId := req.Role.RoleDefinitionID
      requestType := "SelfActivate"
      linkedRoleEligibilityScheduleId := eligibilityScheduleID
      justification := req.Justification
      scheduleInfo :=
        { startDateTime := now
          expiration :=
            { type' := "AfterDuration"
              duration := "PT" ++ toString req.Duration ++ "M" } }
      ticketInfo :=
        if req.TicketNumber ≠ "" ∨ req.TicketSystem ≠ "" then
          some
            { ticketNumber :=
                if req.TicketNumber ≠ "" then some req.TicketNumber else none
              ticketSystem :=
                if req.TicketSystem ≠ "" then some req.TicketSystem else none }
        else none } }

/-- The submission URL of `ActivateRole` (pim.go lines 304–305). -/
def activationURL (scope requestID : String) : String :=
  "https://management.azure.com" ++ scope ++
    "/providers/Microsoft.Authorization/roleAssignmentScheduleRequests/" ++
    requestID ++ "?api-version=2020-10-01"

/-- Observable record of one successful activation: the schedule-lookup
filter used, the resolved schedule id, the submitted body and URL, and the
raw response. -/
structure ActivateTrace where
  scheduleQuery : ScheduleQuery
  eligibilityScheduleID : String
  body : ActivationBody
  url : String
  response : String
deriving Repr, DecidableEq

/-- Embeds `ActivateRole`: resolve the activating principal (fatal on
failure), resolve the linked schedule id with fallback (never fatal), build
the body, submit a PUT (fatal on failure).  The success value is the trace of
what was submitted; the Go function returns only `error`. -/
def ActivateRole (env : ActivateEnv) (req : ActivationRequest) :
    Except String ActivateTrace :=
  match env.getCurrentUserPrincipalID with
  | .error e => .error ("failed to get current user principal ID: " ++ e)
  | .ok currentUserPrincipalID =>
    let q : ScheduleQuery :=
      { scope := req.Role.Scope
        roleDefinitionId := req.Role.RoleDefinitionID
        principalId := req.Role.PrincipalID }
    let eligibilityScheduleID := linkedScheduleID env req
    let body := activationRequestBody currentUserPrincipalID
      eligibilityScheduleID env.nowRFC3339 req
    let url := activationURL req.Role.Scope env.requestID
    match env.put url body with
    | .error e => .error ("activation request failed: " ++ e)
    | .ok out =>
      .ok
        { scheduleQuery := q
          eligibilityScheduleID := eligibilityScheduleID
          body := body
          url := url
          response := out }

/-- Outcome of running the interactive chooser (the bubbletea program of
ui/selector.go): a run failure, or a final model with its `cancelled` flag
and optional selection. -/
inductive ChooserOutcome where
  | runError (e : String)
  | finished (cancelled : Bool) (selected : Option EligibleRole)
deriving Repr, DecidableEq

/-- Embeds `SelectRole` (ui/selector.go lines 174–206): empty list is an
error; a single candidate is returned without consulting the chooser;
multiple candidates in non-interactive mode is an error; otherwise the
chooser's outcome decides. -/
def SelectRole (chooser : List EligibleRole → ChooserOutcome)
    (roles : List EligibleRole) (nonInteractive : Bool) :
    Except String EligibleRole :=
  match roles with
  | [] => .error "no eligible roles available"
  | [r] => .ok r
  | _ =>
    if nonInteractive then
      .error "multiple roles available but running in non-interactive mode"
    else
      match chooser roles with
      | .runError e => .error ("selector failed: " ++ e)
      | .finished true _ => .error "selection cancelled"
      | .finished false none => .error "no role selected"
      | .finished false (some r) => .ok r

/-- Concrete page item used by concrete-instance theorems: no expanded
properties, malformed timestamps. -/
def sampleItem : PageItem :=
  { id := "/subscriptions/sub-1/providers/Microsoft.Authorization/roleEligibilityScheduleInstances/inst-1"
    name := "inst-1"
    type' := "Microsoft.Authorization/roleEligibilityScheduleInstances"
    properties :=
      { roleDefinitionId := "/subscriptions/sub-1/providers/Microsoft.Authorization/roleDefinitions/rd-1"
        scope := "/subscriptions/sub-1"
        principalId := "group-1"
        status := "Provisioned"
        memberType := "Group"
        startDateTime := "not-a-timestamp"
        endDateTime := some "also-not-a-timestamp"
        expandedProperties := none } }

/-- Concrete page item with expanded properties. -/
def sampleItem2 : PageItem :=
  { id := "/subscriptions/sub-1/providers/Microsoft.Authorization/roleEligibilityScheduleInstances/inst-2"
    name := "inst-2"
    type' := "Microsoft.Authorization/roleEligibilityScheduleInstances"
    properties :=
      { roleDefinitionId := "/subscriptions/sub-1/providers/Microsoft.Authorization/roleDefinitions/rd-2"
        scope := "/subscriptions/sub-1/resourceGroups/rg-1"
        principalId := "user-1"
        status := "Provisioned"
        memberType := "Direct"
        startDateTime := "2026-01-01T00:00:00Z"
        endDateTime := none
        expandedProperties := some
          { roleDefinition :=
              { id := "/providers/Microsoft.Authorization/roleDefinitions/rd-2"
                displayName := "Contributor"
                type' := "Microsoft.Authorization/roleDefinitions" }
            scope :=
              { id := "/subscriptions/sub-1/resourceGroups/rg-1"
                displayName := "rg-1"
                type' := "resourcegroup" }
            principal :=
              { id := "user-1"
                displayName := "User One"
                email := "u1@example.test"
                type' := "User" } } } }

/-- Concrete roles with a duplicated ID, for dedup instances. -/
def sampleRoleA : EligibleRole := mapItem (fun _ => none) sampleItem

/-- Second concrete role. -/
def sampleRoleB : EligibleRole := mapItem (fun _ => none) sampleItem2

/-- A different role carrying the same ID as `sampleRoleA`. -/
def sampleRoleA2 : EligibleRole :=
  { sampleRoleA with RoleName := "stale-copy", Status := "Expired" }

/-- Three concrete pages forming a `nextLink` chain `u1 → u2 → u3 → done`. -/
def samplePage1 : PageResponse := { value := [sampleItem], nextLink := "u2" }

/-- Second page of the chain. -/
def samplePage2 : PageResponse := { value := [sampleItem2], nextLink := "u3" }

/-- Last page of the chain: no `nextLink`. -/
def samplePage3 : PageResponse := { value := [sampleItem], nextLink := "" }

/-- Single page with no continuation, served at the sub-1 scope URL. -/
def samplePageA : PageResponse := { value := [sampleItem, sampleItem2], nextLink := "" }

/-- Concrete aggregator environment: two subscriptions, tenant-root and
sub-2 queries fail, sub-1 succeeds with one page, and a three-page chain
lives at `u1`/`u2`/`u3`. -/
def sampleAggEnv : AggEnv :=
  { getSubscriptions := .ok [{ ID := "sub-1", Name := "Prod" }, { ID := "sub-2", Name := "Dev" }]
    fetchPage := fun url =>
      if url = "u1" then .ok samplePage1
      else if url = "u2" then .ok samplePage2
      else if url = "u3" then .ok samplePage3
      else if url = eligibleRolesURL "/subscriptions/sub-1" then .ok samplePageA
      else if url = activeAssignmentsURL then .ok samplePage3
      else .error "forbidden"
    parseTime := fun _ => none }

/-- Concrete eligible role for activation instances. -/
def sampleEligibleRole : EligibleRole := sampleRoleA

/-- Concrete activation request, no ticket metadata. -/
def sampleReq : ActivationRequest :=
  { Role := sampleEligibleRole
    Duration := 90
    Justification := "incident response"
    TicketNumber := ""
    TicketSystem := "" }

/-- Concrete activation request with a ticket number only. -/
def sampleReq2 : ActivationRequest :=
  { sampleReq with Duration := 30, TicketNumber := "T-42" }

/-- Concrete activation environment whose schedule lookup returns no rows. -/
def sampleActEnv : ActivateEnv :=
  { getCurrentUserPrincipalID := .ok "user-1"
    queryEligibilitySchedules := fun _ => .ok []
    nowRFC3339 := "2026-10-11T00:00:00Z"
    requestID := "11111111-2222-3333-4444-555555555555"
    put := fun _ _ => .ok "accepted" }

/-- Concrete activation environment whose schedule lookup finds one row. -/
def sampleActEnv2 : ActivateEnv :=
  { sampleActEnv with
    queryEligibilitySchedules := fun _ =>
      .ok [{ id := "/subscriptions/sub-1/providers/Microsoft.Authorization/roleEligibilitySchedules/sched-1"
             name := "sched-1" }] }

/-- The trace of activating `sampleReq` in `sampleActEnv` (schedule lookup
empty, so the fallback identifier is used). -/
def sampleTrace1 : ActivateTrace :=
  { scheduleQuery :=
      { scope := sampleReq.Role.Scope
        roleDefinitionId := sampleReq.Role.RoleDefinitionID
        principalId := sampleReq.Role.PrincipalID }
    eligibilityScheduleID := linkedScheduleID sampleActEnv sampleReq
    body := activationRequestBody "user-1" (linkedScheduleID sampleActEnv sampleReq)
      sampleActEnv.nowRFC3339 sampleReq
    url := activationURL sampleReq.Role.Scope sampleActEnv.requestID
    response := "accepted" }

/-- The trace of activating `sampleReq2` (ticket number set) in
`sampleActEnv`. -/
def sampleTrace2 : ActivateTrace :=
  { scheduleQuery :=
      { scope := sampleReq2.Role.Scope
        roleDefinitionId := sampleReq2.Role.RoleDefinitionID
        principalId := sampleReq2.Role.PrincipalID }
    eligibilityScheduleID := linkedScheduleID sampleActEnv sampleReq2
    body := activationRequestBody "user-1" (linkedScheduleID sampleActEnv sampleReq2)
      sampleActEnv.nowRFC3339 sampleReq2
    url := activationURL sampleReq2.Role.Scope sampleActEnv.requestID
    response := "accepted" }

/-- The trace of activating `sampleReq` in `sampleActEnv2` (schedule lookup
returns one row named `sched-1`). -/
def sampleTrace3 : ActivateTrace :=
  { scheduleQuery :=
      { scope := sampleReq.Role.Scope
        roleDefinitionId := sampleReq.Role.RoleDefinitionID
        principalId := sampleReq.Role.PrincipalID }
    eligibilityScheduleID := linkedScheduleID sampleActEnv2 sampleReq
    body := activationRequestBody "user-1" (linkedScheduleID sampleActEnv2 sampleReq)
      sampleActEnv2.nowRFC3339 sampleReq
    url := activationURL sampleReq.Role.Scope sampleActEnv2.requestID
    response := "accepted" }

section DedupLemmas

lemma dedupGo_cons_pos (seen : List String) (r : EligibleRole)
    (rest : List EligibleRole) (h : r.ID ∈ seen) :
    dedupGo seen (r :: rest) = dedupGo seen rest := by
  simp [dedupGo, h]

lemma dedupGo_cons_neg (seen : List String) (r : EligibleRole)
    (rest : List EligibleRole) (h : r.ID ∉ seen) :
    dedupGo seen (r :: rest) = r :: dedupGo (r.ID :: seen) rest := by
  simp [dedupGo, h]

lemma dedupGo_sublist (seen : List String) (l : List EligibleRole) :
    List.Sublist (dedupGo seen l) l := by
  induction l generalizing seen with
  | nil => simp [dedupGo]
  | cons r rest ih =>
    by_cases h : r.ID ∈ seen
    · rw [dedupGo_cons_pos seen r rest h]
      exact (ih seen).cons r
    · rw [dedupGo_cons_neg seen r rest h]
      exact (ih (r.ID :: seen)).cons₂ r

lemma dedupGo_not_seen (seen : List String) (l : List EligibleRole) :
    ∀ r ∈ dedupGo seen l, r.ID ∉ seen := by
  induction l generalizing seen with
  | nil => simp [dedupGo]
  | cons r rest ih =>
    by_cases h : r.ID ∈ seen
    · rw [dedupGo_cons_pos seen r rest h]
      exact ih seen
    · rw [dedupGo_cons_neg seen r rest h]
      intro x hx
      rcases List.mem_cons.mp hx with rfl | hx'
      · exact h
      · have hni := ih (r.ID :: seen) x hx'
        intro hc
        exact hni (List.mem_cons_of_mem _ hc)

lemma dedupGo_nodup (seen : List String) (l : List EligibleRole) :
    ((dedupGo seen l).map (fun r => r.ID)).Nodup := by
  induction l generalizing seen with
  | nil => simp [dedupGo]
  | cons r rest ih =>
    by_cases h : r.ID ∈ seen
    · rw [dedupGo_cons_pos seen r rest h]
      exact ih seen
    · rw [dedupGo_cons_neg seen r rest h]
      simp only [List.map_cons, List.nodup_cons]
      refine ⟨?_, ih (r.ID :: seen)⟩
      intro hmem
      rcases List.mem_map.mp hmem with ⟨x, hx, hid⟩
      have hni := dedupGo_not_seen (r.ID :: seen) rest x hx
      exact hni (by simp [hid])

lemma dedupGo_first (seen : List String) (l : List EligibleRole) :
    ∀ r ∈ dedupGo seen l,
      (l.filter (fun x => x.ID == r.ID)).head? = some r := by
  induction l generalizing seen with
  | nil => simp [dedupGo]
  | cons r rest ih =>
    intro x hx
    by_cases h : r.ID ∈ seen
    · rw [dedupGo_cons_pos seen r rest h] at hx
      have hns := dedupGo_not_seen seen rest x hx
      have hne : (r.ID == x.ID) = false := by
        rw [beq_eq_false_iff_ne]
        intro he
        exact hns (he ▸ h)
      rw [List.filter_cons]
      simp only [hne, if_false]
      exact ih seen x hx
    · rw [dedupGo_cons_neg seen r rest h] at hx
      rcases List.mem_cons.mp hx with rfl | hx'
      · simp [List.filter_cons]
      · have hns := dedupGo_not_seen (r.ID :: seen) rest x hx'
        have hxr : (r.ID == x.ID) = false := by
          rw [beq_eq_false_iff_ne]
          intro he
          exact hns (by simp [he])
        rw [List.filter_cons]
        simp only [hxr, if_false]
        exact ih (r.ID :: seen) x hx'

lemma dedupGo_complete (seen : List String) (l : List EligibleRole) :
    ∀ r ∈ l, r.ID ∈ seen ∨ ∃ x ∈ dedupGo seen l, x.ID = r.ID := by
  induction l generalizing seen with
  | nil => simp
  | cons a rest ih =>
    intro r hr
    by_cases h : a.ID ∈ seen
    · rcases List.mem_cons.mp hr with rfl | hr'
      · exact Or.inl h
      · rcases ih seen r hr' with hc | ⟨x, hx, hid⟩
        · exact Or.inl hc
        · exact Or.inr ⟨x, by rw [dedupGo_cons_pos seen a rest h]; exact hx, hid⟩
    · rcases List.mem_cons.mp hr with rfl | hr'
      · refine Or.inr ⟨r, ?_, rfl⟩
        rw [dedupGo_cons_neg seen r rest h]
        exact List.mem_cons_self r _
      · rcases ih (a.ID :: seen) r hr' with hc | ⟨x, hx, hid⟩
        · rcases List.mem_cons.mp hc with hba | hcs
          · refine Or.inr ⟨a, ?_, hba.symm⟩
            rw [dedupGo_cons_neg seen a rest h]
            exact List.mem_cons_self a _
          · exact Or.inl hcs
        · refine Or.inr ⟨x, ?_, hid⟩
          rw [dedupGo_cons_neg seen a rest h]
          exact List.mem_cons_of_mem a hx

end DedupLemmas

/-- Claim C4: after all scope queries, the aggregator deduplicates by the
role's `ID`, keeping the first-seen occurrence, preserving first-seen order
(the output is a sublist of the input), losing no identifier, and producing
no two elements with the same `ID`. -/
theorem dedupByID_spec (roles : List EligibleRole) :
    ((dedupByID roles).map (fun r => r.ID)).Nodup ∧
    List.Sublist (dedupByID roles) roles ∧
    (∀ r ∈ roles, ∃ x ∈ dedupByID roles, x.ID = r.ID) ∧
    (∀ r ∈ dedupByID roles,
      (roles.filter (fun x => x.ID == r.ID)).head? = some r) := by
  refine ⟨dedupGo_nodup [] roles, dedupGo_sublist [] roles, ?_,
    dedupGo_first [] roles⟩
  intro r hr
  rcases dedupGo_complete [] roles r hr with hc | hx
  · simp [List.contains] at hc
  · exact hx

/-- Witness for C4 at a concrete list carrying a duplicated ID. -/
theorem dedupByID_spec_witness :
    ((dedupByID [sampleRoleA, sampleRoleB, sampleRoleA2]).map (fun r => r.ID)).Nodup ∧
    (([sampleRoleA, sampleRoleB, sampleRoleA2].filter
        (fun x => x.ID == sampleRoleA.ID)).head? = some sampleRoleA) := by
  refine ⟨(dedupByID_spec [sampleRoleA, sampleRoleB, sampleRoleA2]).1, ?_⟩
  exact (dedupByID_spec [sampleRoleA, sampleRoleB, sampleRoleA2]).2.2.2
    sampleRoleA (by decide)

section ActivateLemmas

lemma ActivateRole_ok (env : ActivateEnv) (req : ActivationRequest)
    (tr : ActivateTrace) (h : ActivateRole env req = .ok tr) :
    ∃ u out, env.getCurrentUserPrincipalID = .ok u ∧
      env.put (activationURL req.Role.Scope env.requestID)
          (activationRequestBody u (linkedScheduleID env req) env.nowRFC3339 req) =
        .ok out ∧
      tr = { scheduleQuery :=
               { scope := req.Role.Scope
                 roleDefinitionId := req.Role.RoleDefinitionID
                 principalId := req.Role.PrincipalID }
             eligibilityScheduleID := linkedScheduleID env req
             body := activationRequestBody u (linkedScheduleID env req)
               env.nowRFC3339 req
             url := activationURL req.Role.Scope env.requestID
             response := out } := by
  unfold ActivateRole at h
  cases hcu : env.getCurrentUserPrincipalID with
  | error e => rw [hcu] at h; simp at h
  | ok u =>
    rw [hcu] at h
    simp only [] at h
    cases hput : env.put (activationURL req.Role.Scope env.requestID)
        (activationRequestBody u (linkedScheduleID env req) env.nowRFC3339 req) with
    | error e => rw [hput] at h; simp at h
    | ok out =>
      rw [hput] at h
      simp only [Except.ok.injEq] at h
      exact ⟨u, out, rfl, hput, h.symm⟩

end ActivateLemmas

/-- Claim C1: the activation body submitted by `ActivateRole` carries the
activating (currently signed-in) principal's identifier, while the schedule
lookup is filtered by the eligibility record's own principal. -/
theorem activateRole_principal_disambiguation
    (env : ActivateEnv) (req : ActivationRequest) (u : String)
    (tr : ActivateTrace) (hu : env.getCurrentUserPrincipalID = .ok u)
    (h : ActivateRole env req = .ok tr) :
    tr.body.properties.principalId = u ∧
    tr.scheduleQuery =
      { scope := req.Role.Scope
        roleDefinitionId := req.Role.RoleDefinitionID
        principalId := req.Role.PrincipalID } ∧
    tr.eligibilityScheduleID = linkedScheduleID env req := by
  rcases ActivateRole_ok env req tr h with ⟨u', out, hu', _, htr⟩
  rw [hu] at hu'
  cases hu'
  subst htr
  exact ⟨rfl, rfl, rfl⟩

/-- Witness for C1: concrete environment and request; the body carries the
signed-in user even though the eligibility is recorded for a group. -/
theorem activateRole_principal_disambiguation_witness :
    ActivateRole sampleActEnv sampleReq = .ok sampleTrace1 ∧
    sampleTrace1.body.properties.principalId = "user-1" ∧
    sampleTrace1.scheduleQuery.principalId = "group-1" := by
  refine ⟨rfl, ?_, ?_⟩
  · exact (activateRole_principal_disambiguation sampleActEnv sampleReq
      "user-1" sampleTrace1 rfl rfl).1
  · have h2 := (activateRole_principal_disambiguation sampleActEnv sampleReq
      "user-1" sampleTrace1 rfl rfl).2.1
    rw [h2]
    rfl

/-- Claim C2: schedule linking always produces an identifier: a query with a
non-empty result set yields the `name` of the first match; a failed or empty
query falls back to the last path segment of the eligible-role instance's own
id; and `ActivateRole` surfaces no error from the lookup — whenever the
principal lookup and the submission succeed, activation succeeds and uses the
resolved identifier. -/
theorem linkedScheduleID_never_fails
    (env : ActivateEnv) (req : ActivationRequest) :
    (∀ v vs,
      env.queryEligibilitySchedules
          (eligibilitySchedulesURL req.Role.Scope req.Role.RoleDefinitionID
            req.Role.PrincipalID) = .ok (v :: vs) →
      linkedScheduleID env req = v.name) ∧
    (∀ e,
      env.queryEligibilitySchedules
          (eligibilitySchedulesURL req.Role.Scope req.Role.RoleDefinitionID
            req.Role.PrincipalID) = .error e →
      linkedScheduleID env req = extractLastSegment req.Role.ID) ∧
    (env.queryEligibilitySchedules
        (eligibilitySchedulesURL req.Role.Scope req.Role.RoleDefinitionID
          req.Role.PrincipalID) = .ok [] →
      linkedScheduleID env req = extractLastSegment req.Role.ID) ∧
    (∀ u, env.getCurrentUserPrincipalID = .ok u →
      (∀ url body, ∃ out, env.put url body = .ok out) →
      ∃ tr, ActivateRole env req = .ok tr ∧
        tr.eligibilityScheduleID = linkedScheduleID env req) := by
  refine ⟨?_, ?_, ?_, ?_⟩
  · intro v vs hq
    unfold linkedScheduleID getEligibilityScheduleID
    rw [hq]
  · intro e hq
    unfold linkedScheduleID getEligibilityScheduleID
    rw [hq]
  · intro hq
    unfold linkedScheduleID getEligibilityScheduleID
    rw [hq]
  · intro u hu hp
    obtain ⟨out, hout⟩ := hp (activationURL req.Role.Scope env.requestID)
      (activationRequestBody u (linkedScheduleID env req) env.nowRFC3339 req)
    refine ⟨{ scheduleQuery :=
                { scope := req.Role.Scope
                  roleDefinitionId := req.Role.RoleDefinitionID
                  principalId := req.Role.PrincipalID }
              eligibilityScheduleID := linkedScheduleID env req
              body := activationRequestBody u (linkedScheduleID env req)
                env.nowRFC3339 req
              url := activationURL req.Role.Scope env.requestID
              response := out }, ?_, rfl⟩
    unfold ActivateRole
    rw [hu]
    simp only []
    rw [hout]

/-- Witness for C2: in `sampleActEnv2` the lookup finds a row and its name is
used; in `sampleActEnv` the lookup is empty and the instance id's last
segment `inst-1` is used, with activation still succeeding. -/
theorem linkedScheduleID_never_fails_witness :
    linkedScheduleID sampleActEnv2 sampleReq = "sched-1" ∧
    linkedScheduleID sampleActEnv sampleReq = "inst-1" ∧
    ActivateRole sampleActEnv sampleReq = .ok sampleTrace1 := by
  refine ⟨?_, ?_, rfl⟩
  · exact (linkedScheduleID_never_fails sampleActEnv2 sampleReq).1
      { id := "/subscriptions/sub-1/providers/Microsoft.Authorization/roleEligibilitySchedules/sched-1"
        name := "sched-1" } [] rfl
  · have h := (linkedScheduleID_never_fails sampleActEnv sampleReq).2.2.1 rfl
    rw [h]
    rfl

/-- Claim C7: the activation body contains `ticketInfo` iff at least one of
ticket number and ticket system is non-empty, and then only the non-empty
fields are present. -/
theorem activationBody_ticket_conditionality
    (env : ActivateEnv) (req : ActivationRequest) (tr : ActivateTrace)
    (h : ActivateRole env req = .ok tr) :
    (tr.body.properties.ticketInfo = none ↔
      req.TicketNumber = "" ∧ req.TicketSystem = "") ∧
    (req.TicketNumber ≠ "" ∨ req.TicketSystem ≠ "" →
      tr.body.properties.ticketInfo = some
        { ticketNumber :=
            if req.TicketNumber ≠ "" then some req.TicketNumber else none
          ticketSystem :=
            if req.TicketSystem ≠ "" then some req.TicketSystem else none }) := by
  rcases ActivateRole_ok env req tr h with ⟨u, out, _, _, htr⟩
  subst htr
  by_cases h1 : req.TicketNumber = "" <;> by_cases h2 : req.TicketSystem = "" <;>
    simp [activationRequestBody, h1, h2]

/-- Witness for C7: no ticket metadata gives no `ticketInfo`; a ticket number
alone gives `ticketInfo` with only `ticketNumber`. -/
theorem activationBody_ticket_conditionality_witness :
    ActivateRole sampleActEnv sampleReq = .ok sampleTrace1 ∧
    sampleTrace1.body.properties.ticketInfo = none ∧
    ActivateRole sampleActEnv sampleReq2 = .ok sampleTrace2 ∧
    sampleTrace2.body.properties.ticketInfo =
      some { ticketNumber := some "T-42", ticketSystem := none } := by
  refine ⟨rfl, ?_, rfl, ?_⟩
  · exact (activationBody_ticket_conditionality sampleActEnv sampleReq
      sampleTrace1 rfl).1.mpr ⟨rfl, rfl⟩
  · have h := (activationBody_ticket_conditionality sampleActEnv sampleReq2
      sampleTrace2 rfl).2 (Or.inl (by decide))
    rw [h]
    rfl

/-- Claim C8: the schedule-info block of the submitted body encodes the
expiration as the ISO-8601 duration `PT<d>M` with type `AfterDuration`, and
the start time as the environment's formatted current UTC time. -/
theorem activationBody_schedule_encoding
    (env : ActivateEnv) (req : ActivationRequest) (tr : ActivateTrace)
    (h : ActivateRole env req = .ok tr) :
    tr.body.properties.scheduleInfo.startDateTime = env.nowRFC3339 ∧
    tr.body.properties.scheduleInfo.expiration.type' = "AfterDuration" ∧
    tr.body.properties.scheduleInfo.expiration.duration =
      "PT" ++ toString req.Duration ++ "M" ∧
    (req.Duration = 90 →
      tr.body.properties.scheduleInfo.expiration.duration = "PT90M") := by
  rcases ActivateRole_ok env req tr h with ⟨u, out, _, _, htr⟩
  subst htr
  refine ⟨rfl, rfl, rfl, ?_⟩
  intro h90
  simp [activationRequestBody, h90]
  rfl

/-- Witness for C8 at duration 90. -/
theorem activationBody_schedule_encoding_witness :
    ActivateRole sampleActEnv sampleReq = .ok sampleTrace1 ∧
    sampleTrace1.body.properties.scheduleInfo.startDateTime =
      "2026-10-11T00:00:00Z" ∧
    sampleTrace1.body.properties.scheduleInfo.expiration.duration = "PT90M" := by
  refine ⟨rfl, ?_, ?_⟩
  · exact (activationBody_schedule_encoding sampleActEnv sampleReq
      sampleTrace1 rfl).1
  · exact (activationBody_schedule_encoding sampleActEnv sampleReq
      sampleTrace1 rfl).2.2.2 rfl

/-- Claim C9: an empty candidate list is an error; a one-element list is
auto-selected without consulting the chooser (for every chooser, every
mode); more than one candidate in non-interactive mode is a deterministic
error. -/
theorem selectRole_selection_contract
    (chooser : List EligibleRole → ChooserOutcome) (ni : Bool)
    (r : EligibleRole) (roles : List EligibleRole) :
    SelectRole chooser [] ni = .error "no eligible roles available" ∧
    SelectRole chooser [r] ni = .ok r ∧
    (2 ≤ roles.length →
      SelectRole chooser roles true =
        .error "multiple roles available but running in non-interactive mode") := by
  refine ⟨rfl, rfl, ?_⟩
  intro hlen
  rcases roles with _ | ⟨x, _ | ⟨y, rest⟩⟩
  · simp at hlen
  · simp at hlen
  · rfl

/-- Witness for C9 on concrete candidate lists, with a chooser that would
fail if it were ever consulted. -/
theorem selectRole_selection_contract_witness :
    SelectRole (fun _ => ChooserOutcome.runError "consulted") [] false =
      .error "no eligible roles available" ∧
    SelectRole (fun _ => ChooserOutcome.runError "consulted") [sampleRoleA] true =
      .ok sampleRoleA ∧
    SelectRole (fun _ => ChooserOutcome.runError "consulted")
        [sampleRoleA, sampleRoleB] true =
      .error "multiple roles available but running in non-interactive mode" := by
  have h := selectRole_selection_contract
    (fun _ => ChooserOutcome.runError "consulted") true sampleRoleA
    [sampleRoleA, sampleRoleB]
  exact ⟨(selectRole_selection_contract
    (fun _ => ChooserOutcome.runError "consulted") false sampleRoleA []).1,
    h.2.1, h.2.2 (by decide)⟩

section FetchLemmas

lemma fetchEligibleRoles_empty (env : AggEnv) (fuel : Nat) :
    fetchEligibleRoles env fuel "" = (.ok [], []) := by
  unfold fetchEligibleRoles
  simp

lemma fetchEligibleRoles_step (env : AggEnv) (f : Nat) (url : String)
    (resp : PageResponse) (hne : url ≠ "") (hp : env.fetchPage url = .ok resp) :
    fetchEligibleRoles env (f + 1) url =
      ((fetchEligibleRoles env f resp.nextLink).1.map
        (fun more => resp.value.map (mapItem env.parseTime) ++ more),
       url :: (fetchEligibleRoles env f resp.nextLink).2) := by
  conv_lhs => unfold fetchEligibleRoles
  rw [if_neg hne, hp]

end FetchLemmas

/-- Claim C5: the aggregator follows `nextLink` until it is empty: on a
3-page chain exactly 3 requests are issued (the URL trace is the chain) and
the rows of all pages are returned in order. -/
theorem fetchEligibleRoles_pagination
    (env : AggEnv) (fuel : Nat) (u1 u2 u3 : String) (p1 p2 p3 : PageResponse)
    (h1 : u1 ≠ "") (h2 : u2 ≠ "") (h3 : u3 ≠ "")
    (hp1 : env.fetchPage u1 = .ok p1) (hn1 : p1.nextLink = u2)
    (hp2 : env.fetchPage u2 = .ok p2) (hn2 : p2.nextLink = u3)
    (hp3 : env.fetchPage u3 = .ok p3) (hn3 : p3.nextLink = "") :
    fetchEligibleRoles env (fuel + 3) u1 =
      (.ok ((p1.value ++ p2.value ++ p3.value).map (mapItem env.parseTime)),
       [u1, u2, u3]) := by
  have s1 := fetchEligibleRoles_step env (fuel + 2) u1 p1 h1 hp1
  rw [show fuel + 2 + 1 = fuel + 3 from rfl] at s1
  have s2 := fetchEligibleRoles_step env (fuel + 1) u2 p2 h2 hp2
  rw [show fuel + 1 + 1 = fuel + 2 from rfl] at s2
  have s3 := fetchEligibleRoles_step env fuel u3 p3 h3 hp3
  rw [s1, hn1, s2, hn2, s3, hn3, fetchEligibleRoles_empty env fuel]
  simp [Except.map]

/-- Witness for C5: the concrete 3-page chain of `sampleAggEnv`. -/
theorem fetchEligibleRoles_pagination_witness :
    fetchEligibleRoles sampleAggEnv 3 "u1" =
      (.ok ((samplePage1.value ++ samplePage2.value ++ samplePage3.value).map
        (mapItem sampleAggEnv.parseTime)), ["u1", "u2", "u3"]) ∧
    (fetchEligibleRoles sampleAggEnv 3 "u1").2.length = 3 := by
  have h := fetchEligibleRoles_pagination sampleAggEnv 0 "u1" "u2" "u3"
    samplePage1 samplePage2 samplePage3 (by decide) (by decide) (by decide)
    rfl rfl rfl rfl rfl rfl
  refine ⟨h, ?_⟩
  rw [h]
  rfl

section AggLemmas

lemma foldl_scopeRows (env : AggEnv) (fuel : Nat) (subs : List Subscription)
    (init : List EligibleRole) :
    subs.foldl
      (fun acc sub =>
        match (getEligibleRolesAtScope env fuel ("/subscriptions/" ++ sub.ID)).1 with
        | .ok rs => acc ++ rs
        | .error _ => acc)
      init =
    init ++ (subs.map
      (fun sub => scopeRows env fuel ("/subscriptions/" ++ sub.ID))).flatten := by
  induction subs generalizing init with
  | nil => simp
  | cons s rest ih =>
    rw [List.foldl_cons, ih]
    cases hq : (getEligibleRolesAtScope env fuel ("/subscriptions/" ++ s.ID)).1 with
    | ok rs => simp [scopeRows, hq, List.append_assoc]
    | error e => simp [scopeRows, hq]

lemma GetEligibleRoleAssignments_err (env : AggEnv) (fuel : Nat) (e : String)
    (he : env.getSubscriptions = .error e) :
    GetEligibleRoleAssignments env fuel =
      .error ("failed to get subscriptions: " ++ e) := by
  unfold GetEligibleRoleAssignments
  rw [he]

lemma GetEligibleRoleAssignments_ok (env : AggEnv) (fuel : Nat)
    (subs : List Subscription) (hs : env.getSubscriptions = .ok subs) :
    GetEligibleRoleAssignments env fuel =
      .ok (dedupByID (scopeRows env fuel "" ++
        (subs.map
          (fun sub => scopeRows env fuel ("/subscriptions/" ++ sub.ID))).flatten)) := by
  unfold GetEligibleRoleAssignments
  rw [hs]
  simp only [foldl_scopeRows]
  rfl

end AggLemmas

/-- Claim C3: only a failure of subscription enumeration makes the
aggregator fail; tenant-root and per-subscription query failures are
swallowed and the result is the union of the rows of the scopes that
succeeded, in scope order, deduplicated. -/
theorem getEligibleRoleAssignments_failure_semantics
    (env : AggEnv) (fuel : Nat) :
    (∀ e, env.getSubscriptions = .error e →
      GetEligibleRoleAssignments env fuel =
        .error ("failed to get subscriptions: " ++ e)) ∧
    (∀ subs, env.getSubscriptions = .ok subs →
      GetEligibleRoleAssignments env fuel =
        .ok (dedupByID (scopeRows env fuel "" ++
          (subs.map
            (fun sub => scopeRows env fuel ("/subscriptions/" ++ sub.ID))).flatten))) :=
  ⟨fun e he => GetEligibleRoleAssignments_err env fuel e he,
   fun subs hs => GetEligibleRoleAssignments_ok env fuel subs hs⟩

set_option maxRecDepth 8192 in
/-- Witness for C3 in `sampleAggEnv`: the tenant-root query and the sub-2
query fail, the sub-1 query succeeds, and the aggregation succeeds with
exactly the sub-1 rows. -/
theorem getEligibleRoleAssignments_failure_semantics_witness :
    GetEligibleRoleAssignments sampleAggEnv 1 =
      .ok (dedupByID (scopeRows sampleAggEnv 1 "" ++
        (([{ ID := "sub-1", Name := "Prod" },
           { ID := "sub-2", Name := "Dev" }] : List Subscription).map
          (fun sub => scopeRows sampleAggEnv 1 ("/subscriptions/" ++ sub.ID))).flatten)) ∧
    (sampleAggEnv.fetchPage (eligibleRolesURL "")).isOk = false ∧
    (sampleAggEnv.fetchPage (eligibleRolesURL "/subscriptions/sub-2")).isOk = false ∧
    GetEligibleRoleAssignments sampleAggEnv 1 = .ok [sampleRoleA, sampleRoleB] := by
  refine ⟨(getEligibleRoleAssignments_failure_semantics sampleAggEnv 1).2
    ([{ ID := "sub-1", Name := "Prod" },
      { ID := "sub-2", Name := "Dev" }] : List Subscription) rfl,
    rfl, rfl, rfl⟩

section MapItemLemmas

lemma mapItem_eq (parse : String → Option Nat) (item : PageItem) :
    mapItem parse item =
      { ID := item.id
        EligibilityID := item.id
        RoleDefinitionID := item.properties.roleDefinitionId
        RoleName :=
          match item.properties.expandedProperties with
          | some ep => ep.roleDefinition.displayName
          | none => extractLastSegment item.properties.roleDefinitionId
        Scope := item.properties.scope
        ScopeName :=
          match item.properties.expandedProperties with
          | some ep => ep.scope.displayName
          | none => extractScopeName item.properties.scope
        ScopeType :=
          match item.properties.expandedProperties with
          | some ep => ep.scope.type'
          | none => detectScopeType item.properties.scope
        PrincipalID := item.properties.principalId
        Status := item.properties.status
        MemberType := item.properties.memberType
        StartDateTime :=
          if item.properties.startDateTime ≠ "" then
            (parse item.properties.startDateTime).getD 0
          else 0
        EndDateTime :=
          match item.properties.endDateTime with
          | some s => if s ≠ "" then parse s else none
          | none => none
        MaxDuration := 480
        ExpandedProperties := item.properties.expandedProperties } := by
  unfold mapItem
  rcases hep : item.properties.expandedProperties with _ | ep <;>
    rcases hed : item.properties.endDateTime with _ | s <;>
      rcases hps : parse item.properties.startDateTime with _ | t <;>
        by_cases hst : item.properties.startDateTime = "" <;>
          simp [hep, hed, hps, hst] <;>
            rcases hpe : parse s with _ | t2 <;>
              by_cases hse : s = "" <;>
                simp [hpe, hse]

end MapItemLemmas

/-- Claim C6: per-row mapping — malformed timestamps are dropped silently
(fields stay at the zero value) without failing the fetch, `MaxDuration`
defaults to 480 (the API rows carry no policy information), and
name/scope-name/scope-type come from expanded properties when present, else
from the path heuristics (last segment of the role definition id; segment
after the first `subscriptions`/`resourceGroups`/`managementGroups` segment;
substring match on the scope path). -/
theorem mapItem_row_mapping
    (parse : String → Option Nat) (item : PageItem) (env : AggEnv)
    (fuel : Nat) (url : String) (page : PageResponse) :
    (mapItem parse item).MaxDuration = 480 ∧
    (parse item.properties.startDateTime = none →
      (mapItem parse item).StartDateTime = 0) ∧
    (∀ s, item.properties.endDateTime = some s → parse s = none →
      (mapItem parse item).EndDateTime = none) ∧
    (item.properties.endDateTime = none →
      (mapItem parse item).EndDateTime = none) ∧
    (∀ ep, item.properties.expandedProperties = some ep →
      (mapItem parse item).RoleName = ep.roleDefinition.displayName ∧
      (mapItem parse item).ScopeName = ep.scope.displayName ∧
      (mapItem parse item).ScopeType = ep.scope.type') ∧
    (item.properties.expandedProperties = none →
      (mapItem parse item).RoleName =
        extractLastSegment item.properties.roleDefinitionId ∧
      (mapItem parse item).ScopeName = extractScopeName item.properties.scope ∧
      (mapItem parse item).ScopeType = detectScopeType item.properties.scope) ∧
    (url ≠ "" → env.fetchPage url = .ok page → page.nextLink = "" →
      (fetchEligibleRoles env (fuel + 1) url).1 =
        .ok (page.value.map (mapItem env.parseTime))) ∧
    extractLastSegment
      "/providers/Microsoft.Authorization/roleDefinitions/rd-9" = "rd-9" ∧
    extractScopeName "/subscriptions/sub-9/resourceGroups/rg-9" = "sub-9" ∧
    detectScopeType "/subscriptions/sub-9/resourceGroups/rg-9" =
      "resourceGroup" ∧
    detectScopeType
      "/providers/Microsoft.Management/managementGroups/mg-9" =
      "managementGroup" := by
  rw [mapItem_eq]
  refine ⟨rfl, ?_, ?_, ?_, ?_, ?_, ?_, by decide, by decide, by decide, by decide⟩
  · intro hp
    by_cases hst : item.properties.startDateTime = "" <;> simp [hst, hp]
  · intro s hs hp
    rw [hs]
    by_cases hse : s = "" <;> simp [hse, hp]
  · intro hn
    rw [hn]
  · intro ep hep
    rw [hep]
    exact ⟨rfl, rfl, rfl⟩
  · intro hep
    rw [hep]
    exact ⟨rfl, rfl, rfl⟩
  · intro hne hp hnl
    rw [fetchEligibleRoles_step env fuel url page hne hp, hnl,
      fetchEligibleRoles_empty env fuel]
    simp [Except.map]

/-- Witness for C6: `sampleItem` has malformed timestamps and no expanded
properties (heuristic names); `sampleItem2` has expanded properties; the
single-page fetch at `u3` succeeds despite the malformed timestamps. -/
theorem mapItem_row_mapping_witness :
    (mapItem (fun _ => none) sampleItem).MaxDuration = 480 ∧
    (mapItem (fun _ => none) sampleItem).StartDateTime = 0 ∧
    (mapItem (fun _ => none) sampleItem).EndDateTime = none ∧
    (mapItem (fun _ => none) sampleItem).RoleName =
      extractLastSegment sampleItem.properties.roleDefinitionId ∧
    (mapItem (fun _ => none) sampleItem).ScopeType =
      detectScopeType sampleItem.properties.scope ∧
    (mapItem (fun _ => none) sampleItem2).RoleName = "Contributor" ∧
    (fetchEligibleRoles sampleAggEnv 1 "u3").1 =
      .ok (samplePage3.value.map (mapItem sampleAggEnv.parseTime)) := by
  have h := mapItem_row_mapping (fun _ => none) sampleItem sampleAggEnv 0
    "u3" samplePage3
  have h2 := mapItem_row_mapping (fun _ => none) sampleItem2 sampleAggEnv 0
    "u3" samplePage3
  refine ⟨h.1, h.2.1 rfl, h.2.2.1 "also-not-a-timestamp" rfl rfl,
    (h.2.2.2.2.2.1 rfl).1, (h.2.2.2.2.2.1 rfl).2.2, ?_, ?_⟩
  · have := (h2.2.2.2.2.1
      { roleDefinition :=
          { id := "/providers/Microsoft.Authorization/roleDefinitions/rd-2"
            displayName := "Contributor"
            type' := "Microsoft.Authorization/roleDefinitions" }
        scope :=
          { id := "/subscriptions/sub-1/resourceGroups/rg-1"
            displayName := "rg-1"
            type' := "resourcegroup" }
        principal :=
          { id := "user-1"
            displayName := "User One"
            email := "u1@example.test"
            type' := "User" } } rfl).1
    rw [this]
  · exact h.2.2.2.2.2.2.1 (by decide) rfl rfl

section EligibilityIDLemmas

lemma fetch_eligibilityID (env : AggEnv) (fuel : Nat) :
    ∀ url rs, (fetchEligibleRoles env fuel url).1 = .ok rs →
      ∀ r ∈ rs, r.EligibilityID = r.ID := by
  induction fuel with
  | zero =>
    intro url rs h r hr
    by_cases hne : url = ""
    · subst hne
      rw [fetchEligibleRoles_empty] at h
      simp only [Except.ok.injEq] at h
      subst h
      simp at hr
    · unfold fetchEligibleRoles at h
      rw [if_neg hne] at h
      simp at h
  | succ f ih =>
    intro url rs h r hr
    by_cases hne : url = ""
    · subst hne
      rw [fetchEligibleRoles_empty] at h
      simp only [Except.ok.injEq] at h
      subst h
      simp at hr
    · cases hp : env.fetchPage url with
      | error e =>
        unfold fetchEligibleRoles at h
        rw [if_neg hne, hp] at h
        simp at h
      | ok resp =>
        rw [fetchEligibleRoles_step env f url resp hne hp] at h
        cases hrec : (fetchEligibleRoles env f resp.nextLink).1 with
        | error e =>
          rw [hrec] at h
          simp [Except.map] at h
        | ok more =>
          rw [hrec] at h
          simp only [Except.map, Except.ok.injEq] at h
          subst h
          rcases List.mem_append.mp hr with hm | hm
          · rcases List.mem_map.mp hm with ⟨it, _, rfl⟩
            rw [mapItem_eq]
          · exact ih resp.nextLink more hrec r hm

lemma scopeRows_eligibilityID (env : AggEnv) (fuel : Nat) (scope : String) :
    ∀ r ∈ scopeRows env fuel scope, r.EligibilityID = r.ID := by
  intro r hr
  unfold scopeRows at hr
  cases hq : (getEligibleRolesAtScope env fuel scope).1 with
  | error e =>
    rw [hq] at hr
    simp at hr
  | ok rs =>
    rw [hq] at hr
    exact fetch_eligibilityID env fuel (eligibleRolesURL scope) rs hq r hr

lemma mapActiveItem_eligibilityID (item : PageItem) :
    (mapActiveItem item).EligibilityID = "" := by
  unfold mapActiveItem
  rcases hep : item.properties.expandedProperties with _ | ep <;> simp [hep]

end EligibilityIDLemmas

/-- Claim C10: every row of the eligibility aggregator has
`EligibilityID = ID`, both copied from the API item's id, so dedup by `ID`
is also dedup by eligibility identity; rows of `GetActiveRoleAssignments`
leave `EligibilityID` at its zero value. -/
theorem eligibilityID_invariant (env : AggEnv) (fuel : Nat) :
    (∀ parse item, (mapItem parse item).ID = item.id ∧
      (mapItem parse item).EligibilityID = item.id) ∧
    (∀ rs, GetEligibleRoleAssignments env fuel = .ok rs →
      ∀ r ∈ rs, r.EligibilityID = r.ID) ∧
    (∀ rs, GetActiveRoleAssignments env = .ok rs →
      ∀ r ∈ rs, r.EligibilityID = "") := by
  refine ⟨?_, ?_, ?_⟩
  · intro parse item
    rw [mapItem_eq]
    exact ⟨rfl, rfl⟩
  · intro rs h r hr
    cases hs : env.getSubscriptions with
    | error e =>
      rw [GetEligibleRoleAssignments_err env fuel e hs] at h
      simp at h
    | ok subs =>
      rw [GetEligibleRoleAssignments_ok env fuel subs hs] at h
      simp only [Except.ok.injEq] at h
      subst h
      have hmem := (dedupGo_sublist [] _).subset hr
      rcases List.mem_append.mp hmem with hm | hm
      · exact scopeRows_eligibilityID env fuel "" r hm
      · rcases List.mem_flatten.mp hm with ⟨l, hl, hrl⟩
        rcases List.mem_map.mp hl with ⟨sub, _, rfl⟩
        exact scopeRows_eligibilityID env fuel
          ("/subscriptions/" ++ sub.ID) r hrl
  · intro rs h r hr
    unfold GetActiveRoleAssignments at h
    cases hp : env.fetchPage activeAssignmentsURL with
    | error e =>
      rw [hp] at h
      simp at h
    | ok resp =>
      rw [hp] at h
      simp only [Except.ok.injEq] at h
      subst h
      rcases List.mem_map.mp hr with ⟨it, _, rfl⟩
      exact mapActiveItem_eligibilityID it

set_option maxRecDepth 8192 in
/-- Witness for C10 on the concrete aggregator results of `sampleAggEnv`. -/
theorem eligibilityID_invariant_witness :
    (mapItem (fun _ => none) sampleItem).EligibilityID = sampleItem.id ∧
    GetEligibleRoleAssignments sampleAggEnv 1 = .ok [sampleRoleA, sampleRoleB] ∧
    sampleRoleA.EligibilityID = sampleRoleA.ID ∧
    GetActiveRoleAssignments sampleAggEnv = .ok [mapActiveItem sampleItem] ∧
    (mapActiveItem sampleItem).EligibilityID = "" := by
  have h := eligibilityID_invariant sampleAggEnv 1
  refine ⟨(h.1 (fun _ => none) sampleItem).2, rfl, ?_, rfl, ?_⟩
  · exact h.2.1 [sampleRoleA, sampleRoleB] rfl sampleRoleA (by decide)
  · exact h.2.2 [mapActiveItem sampleItem] rfl (mapActiveItem sampleItem)
      (by decide)

end Hacktivator
